import Mathlib

/-!
# Verification of the HFT-Races latency-arbitrage pipeline

Shallow embedding of the core of the `HFT-Races` repository
(`PythonCode/LatencyArbitrageAnalysis`): the single-price-level race
detector (`RaceDetection/Race_Detection_Functions.py`,
`RaceDetection/Race_Msg_Outcome.py`), the race-relevance preparation pass
(`RaceDetection/Prep_Race_Data.py`), the event-classification lookaheads
(`Classify_Messages.py`), and the order-book correction logic
(`OrderBook/OrderBook.py`, `Prep_Order_Book.py`).

Prices, quantities and timestamps are embedded as `Int` (the source works
in integer price-factor units and nanosecond timestamps).  Columns that
may hold pandas `NaN`/`NaT` are embedded as `Option Int`; pandas/NumPy
comparison semantics — any comparison against a missing value is `False` —
is captured by the `opt*` comparison helpers below.
-/

namespace HFTRaces

/-- Pandas-style `≤` on possibly-missing values: any comparison involving
`NaN` is `False`. -/
def optLE : Option Int → Option Int → Bool
  | some a, some b => a ≤ b
  | _, _ => false

/-- Pandas-style `<` on possibly-missing values: `False` when either side
is missing. -/
def optLT : Option Int → Option Int → Bool
  | some a, some b => a < b
  | _, _ => false

/-- Pandas-style `≥` on possibly-missing values: `False` when either side
is missing. -/
def optGE : Option Int → Option Int → Bool
  | some a, some b => b ≤ a
  | _, _ => false

/-- Python's `min` over a list: start from the first element and replace
the running best whenever a later element compares strictly `<`.  A
missing value (`NaN`) never compares `<`, so it is kept only when it is
the running best already (this mirrors CPython float-`min` semantics).
`min` of an empty sequence raises in Python; the empty case is modelled
as `none` and is never reached from the call sites embedded here. -/
def pymin : List (Option Int) → Option Int
  | [] => none
  | x :: xs => xs.foldl (fun best v => if optLT v best then v else best) x

/-- Python's `max` over a list, mirrored from `pymin`. -/
def pymax : List (Option Int) → Option Int
  | [] => none
  | x :: xs => xs.foldl (fun best v => if optLT best v then v else best) x

/-! ## Module namespace of `RaceDetection/Race_Msg_Outcome.py`

`Race_Detection_Functions.py` begins with
`from .Race_Msg_Outcome import get_msg_outcome`.  The names actually
bound at top level of `Race_Msg_Outcome.py` are listed here; the import
succeeds exactly when the requested name is among them. -/

/-- The top-level function names defined by `Race_Msg_Outcome.py`. -/
def raceMsgOutcomeModuleNames : List String := ["GetTakeOutcome", "GetOutcome"]

/-- The name that `Race_Detection_Functions.py` (line 11) — and the
callers in `MiscABOCodeSnippets` — request from `Race_Msg_Outcome`. -/
def raceDetectionImportedName : String := "get_msg_outcome"

/-- A Python `from M import x` succeeds iff `x` is bound in module `M`. -/
def raceDetectionImportOk : Bool :=
  raceMsgOutcomeModuleNames.contains raceDetectionImportedName

/-! ## `Race_Msg_Outcome.GetTakeOutcome` / `GetOutcome`

Embedded from `RaceDetection/Race_Msg_Outcome.py` lines 7–72.  The
message argument is reduced to the four columns the function reads:
`%sRaceRlvtOutcomeGroup`, `%sRaceRlvtBestExecPriceLvlSigned`,
`UnifiedMessageType` and `TIF`.  The race price `P_Signed` is an
`Option Int` because the race-price key ranges over the (possibly
missing) signed price column. -/

/-- `GetTakeOutcome(S, P_Signed, msg, strict_fail)` from
`Race_Msg_Outcome.py` lines 7–50 (the side `S` only selects column names
and is dropped). -/
def GetTakeOutcome (P_Signed : Option Int) (outcome : String)
    (exec_pr : Option Int) (msg_type msg_tif : String)
    (strict_fail : Bool) : String :=
  if strict_fail then
    if outcome = "Fail" then
      if msg_type = "Gateway New Order (IOC)" ∧ msg_tif = "IOC" then "Fail"
      else "Unknown"
    else if outcome = "Race Price Dependent" then
      if optLE exec_pr P_Signed then "Success" else "Unknown"
    else "Unknown"
  else
    if outcome = "Fail" then "Fail"
    else if outcome = "Race Price Dependent" then
      if optLE exec_pr P_Signed then "Success" else "Fail"
    else "Unknown"

/-- Pandas-style `==` on possibly-missing values: `NaN == x` (and in
particular `NaN == NaN`) is `False`. -/
def optEQ : Option Int → Option Int → Bool
  | some a, some b => a == b
  | _, _ => false

/-! ## The race scan of `RaceDetection/Race_Detection_Functions.py`

`find_single_lvl_races(msgs, top, ticktable, race_param)` slices, for each
side `S`, the rows flagged `%sRaceRlvt` and walks them in index order.
One sliced row is embedded as `RMsg`, carrying exactly the vectors the
loop reads (lines 109–116 of the source). -/

/-- One relevant-message row of the per-side slice taken by
`find_single_lvl_races`: `ix`, `ts`, `pr`, `bbo`, `valid`,
`canc_attempt`/`take_attempt` (via `rlvtType`), `proc_time`, plus the
columns consulted by `is_a_race` and `GetOutcome` / `GetTakeOutcome`. -/
structure RMsg where
  ix : Nat
  ts : Int
  pr : Option Int
  bbo : Option Int
  valid : Bool
  rlvtType : String
  outcomeGroup : String
  bestExec : Option Int
  umt : String
  tif : String
  procTime : Option Int
  userID : Nat
  deriving DecidableEq

/-- `GetOutcome(S, P_Signed, subset_msgs, strict_fail)` from
`Race_Msg_Outcome.py` lines 52–72, restricted to a single message: the
outcome of a `Cancel Attempt` is its outcome group; otherwise the message
is resolved by `GetTakeOutcome`. -/
def GetOutcome (P_Signed : Option Int) (strict_fail : Bool) (m : RMsg) : String :=
  if m.rlvtType = "Cancel Attempt" then m.outcomeGroup
  else GetTakeOutcome P_Signed m.outcomeGroup m.bestExec m.umt m.tif strict_fail

/-- `ticktable.loc[ticktable['p_int64'] <= abs(p), 'tick_int64'].iloc[-1]`
(`Race_Detection_Functions.py` line 314): the tick of the last ticktable
row whose threshold is at most `|p|`.  `none` models the `IndexError`
raised when no row qualifies. -/
def tickLookup (ticktable : List (Int × Int)) (p : Int) : Option Int :=
  ((ticktable.filter fun r => r.1 ≤ |p|).map Prod.snd).getLast?

/-- The `while p <= p_max` loop of `get_price_lvls`.  The source advances
`p` by the looked-up tick; a missing ticktable row raises there and a
non-positive tick would loop forever, so both cases terminate the list
here (they cannot advance the scan).  The fuel is sufficient for every
positive-tick run. -/
def priceLvlsGo (ticktable : List (Int × Int)) (p_max : Int) :
    Nat → Int → List Int
  | 0, _ => []
  | fuel + 1, p =>
    if p ≤ p_max then
      p :: (match tickLookup ticktable p with
            | some t => if 0 < t then priceLvlsGo ticktable p_max fuel (p + t) else []
            | none => [])
    else []

/-- `get_price_lvls(p_min, p_max, ticktable)` from
`Race_Detection_Functions.py` lines 307–315: the prices from `p_min` up
to `p_max` in tick-size increments. -/
def get_price_lvls (p_min p_max : Int) (ticktable : List (Int × Int)) : List Int :=
  priceLvlsGo ticktable p_max ((p_max - p_min).toNat + 1) p_min

/-- The race-horizon configuration (`race_param['method']` plus its
method-specific parameters), durations in the timestamp unit. -/
inductive HorizonMethod where
  | infoHorizon (min_reaction_time info_horizon_upper_bound : Int)
  | fixedHorizon (len_fixed_hor : Int)
  deriving DecidableEq

/-- `race_param` as consumed by `find_single_lvl_races` and `is_a_race`. -/
structure RaceParam where
  min_num_participants : Nat
  min_num_takes : Nat
  min_num_cancels : Nat
  strict_fail : Bool
  strict_success : Bool
  method : HorizonMethod
  deriving DecidableEq

/-- The race horizon chosen at a candidate start message
(`Race_Detection_Functions.py` lines 188–195): under `Info_Horizon`,
`min(proc_time + min_reaction_time, upper_bound)` with the upper bound
when the processing time is null; under `Fixed_Horizon`, the fixed
length. -/
def raceHorizon (rp : RaceParam) (m : RMsg) : Int :=
  match rp.method with
  | .infoHorizon min_reaction_time upper_bound =>
    match m.procTime with
    | none => upper_bound
    | some pt => min (pt + min_reaction_time) upper_bound
  | .fixedHorizon len_fixed_hor => len_fixed_hor

/-- The candidate race prices of a message (`Race_Detection_Functions.py`
lines 153–167): a valid cancel attempt proposes its own signed price; a
valid take attempt at the signed BBO or better proposes every tick from
the BBO up to its price.  Other messages start no race. -/
def candidatePrices (ticktable : List (Int × Int)) (m : RMsg) : List (Option Int) :=
  if m.valid ∧ m.rlvtType = "Cancel Attempt" then [m.pr]
  else if m.valid ∧ m.rlvtType = "Take Attempt" ∧ optGE m.pr m.bbo then
    match m.pr, m.bbo with
    | some prv, some bbov => (get_price_lvls bbov prv ticktable).map some
    | _, _ => []
  else []

/-- The inner `while j <= j_stop` gathering loop
(`Race_Detection_Functions.py` lines 198–211): subsequent relevant
messages within the horizon that cancel at exactly `p` or take at `p` or
better; the walk breaks at the first message past the horizon. -/
def gatherSeq (t_start horizon : Int) (p : Option Int) : List RMsg → List RMsg
  | [] => []
  | j :: rest =>
    if t_start + horizon < j.ts then []
    else if j.rlvtType = "Cancel Attempt" ∧ optEQ j.pr p then
      j :: gatherSeq t_start horizon p rest
    else if j.rlvtType = "Take Attempt" ∧ optGE j.pr p then
      j :: gatherSeq t_start horizon p rest
    else gatherSeq t_start horizon p rest

/-- `is_a_race(S, pr, race_msgs, race_param)` from
`Race_Detection_Functions.py` lines 252–305.  Each element pairs a
message with its `%sRaceRlvtMsgOutcome` column (assigned by the caller
just before the check, line 219). -/
def is_a_race (pr : Option Int) (race_msgs : List (RMsg × String))
    (rp : RaceParam) : Bool :=
  let num_userIDs := ((race_msgs.map fun x => x.1.userID).dedup).length
  let n_take := race_msgs.countP fun x => x.1.rlvtType == "Take Attempt"
  let n_canc := race_msgs.countP fun x => x.1.rlvtType == "Cancel Attempt"
  let n_succ := race_msgs.countP fun x => x.2 == "Success"
  let n_fail := race_msgs.countP fun x => x.2 == "Fail"
  let base : Bool := decide (rp.min_num_participants ≤ num_userIDs)
    && decide (rp.min_num_takes ≤ n_take) && decide (rp.min_num_cancels ≤ n_canc)
    && decide (1 ≤ n_succ) && decide (1 ≤ n_fail)
  if rp.strict_success then
    let n_fail_take_eq_p := race_msgs.countP fun x =>
      x.2 == "Fail" && x.1.rlvtType == "Take Attempt" && optEQ x.1.pr pr
    if 1 ≤ n_fail_take_eq_p then base else false
  else base

/-- One row of `race_recs`: the starting index and timestamp, the side,
the signed race price, the race horizon, and the indices of the race
messages. -/
structure RaceRec where
  side : String
  startIx : Nat
  ts : Int
  p : Option Int
  horizon : Int
  seq : List Nat
  deriving DecidableEq

/-- The per-side `prev_race_MessageTime` / `prev_race_horizon`
dictionaries, as an association list keyed by signed race price (newest
binding first). -/
abbrev PrevMap := List (Option Int × Int × Int)

/-- Dictionary lookup in `PrevMap`. -/
def pmLookup : PrevMap → Option Int → Option (Int × Int)
  | [], _ => none
  | (q, t, h) :: rest, p => if q = p then some (t, h) else pmLookup rest p

/-- The non-overlap guard (`Race_Detection_Functions.py` lines 174–181):
proceed iff `not ts[i] <= prev_race_MessageTime[p] + prev_race_horizon[p]`.
An absent key was just initialized to `NaT`, and a comparison against
`NaT` is `False`, so the guard passes. -/
def raceGuardOk (prev : PrevMap) (p : Option Int) (t : Int) : Bool :=
  match pmLookup prev p with
  | none => true
  | some (t0, h0) => decide (t0 + h0 < t)

/-- The `for p in possible_race_prices` loop
(`Race_Detection_Functions.py` lines 171–228): per candidate price, apply
the non-overlap guard, fix the horizon, gather the candidate sequence,
resolve outcomes, and on a positive `is_a_race` check emit a race record
and update the previous-race dictionaries. -/
def pricesLoop (rp : RaceParam) (side : String) (m : RMsg) (rest : List RMsg) :
    List (Option Int) → PrevMap → List RaceRec → PrevMap × List RaceRec
  | [], prev, recs => (prev, recs)
  | p :: ps, prev, recs =>
    if raceGuardOk prev p m.ts then
      if is_a_race p ((m :: gatherSeq m.ts (raceHorizon rp m) p rest).map
          fun x => (x, GetOutcome p rp.strict_fail x)) rp then
        pricesLoop rp side m rest ps ((p, m.ts, raceHorizon rp m) :: prev)
          (recs ++ [⟨side, m.ix, m.ts, p, raceHorizon rp m,
            (m :: gatherSeq m.ts (raceHorizon rp m) p rest).map RMsg.ix⟩])
      else pricesLoop rp side m rest ps prev recs
    else pricesLoop rp side m rest ps prev recs

/-- The outer `while i <= i_stop` loop of `find_single_lvl_races` over one
side's relevant messages. -/
def raceScan (rp : RaceParam) (ticktable : List (Int × Int)) (side : String) :
    List RMsg → PrevMap → List RaceRec → List RaceRec
  | [], _, recs => recs
  | m :: rest, prev, recs =>
    let st := pricesLoop rp side m rest (candidatePrices ticktable m) prev recs
    raceScan rp ticktable side rest st.1 st.2

/-- `find_single_lvl_races`: the union of the two per-side scans, in
emission order.  (The source iterates `for S in {'Bid', 'Ask'}` — a
Python set, so the side order is unspecified — and finally sorts the
records by `(Race_Start_Idx, Side, P_Signed)`; the set of emitted
records, which the non-overlap claim is about, is independent of both.) -/
def find_single_lvl_races (rp : RaceParam) (ticktable : List (Int × Int))
    (bidMsgs askMsgs : List RMsg) : List RaceRec :=
  raceScan rp ticktable "Bid" bidMsgs [] [] ++ raceScan rp ticktable "Ask" askMsgs [] []

/-- Two race records do not overlap: if they share side and signed race
price, the second (later-emitted) one starts strictly after the first
one's start plus its horizon. -/
def RaceNonOverlap (r1 r2 : RaceRec) : Prop :=
  r1.side = r2.side → r1.p = r2.p → r1.ts + r1.horizon < r2.ts

/-- Scan invariant: each previous-race entry for the price of an emitted
record either is that record's own `(ts, horizon)` (the record is the
most recent at its price) or was written by a strictly later race start
past the record's window. -/
def PrevLinked (prev : PrevMap) (recs : List RaceRec) : Prop :=
  ∀ r ∈ recs, ∃ t0 h0, pmLookup prev r.p = some (t0, h0) ∧
    ((t0 = r.ts ∧ h0 = r.horizon) ∨ r.ts + r.horizon < t0)

/-- Scan invariant: every previous-race entry was written at a message
whose timestamp is at most `bound`. -/
def PrevFuture (prev : PrevMap) (bound : Int) : Prop :=
  ∀ q t0 h0, pmLookup prev q = some (t0, h0) → t0 ≤ bound

/-! Concrete inputs used by the claim witnesses. -/

/-- Race parameters for the witness run: fixed 50-unit horizon, no
minimum-count requirements, lenient fail/success. -/
def rpW : RaceParam := ⟨0, 0, 0, false, false, .fixedHorizon 50⟩

/-- Witness message: a successful cancel attempt at signed price 100. -/
def mW1 : RMsg :=
  ⟨0, 0, some 100, some 100, true, "Cancel Attempt", "Success", none,
   "Gateway Cancel", "GoodTill", some 1, 1⟩

/-- Witness message: a failed cancel attempt at signed price 100, one
time unit later. -/
def mW2 : RMsg :=
  ⟨1, 1, some 100, some 100, true, "Cancel Attempt", "Fail", none,
   "Gateway Cancel", "GoodTill", some 1, 2⟩

/-! ## The race-relevance pass of `RaceDetection/Prep_Race_Data.py`

Every mask built by `prepare_data` / `gen_ask_races_fields` /
`gen_bid_races_fields` is element-wise, so the pass is embedded per
message row.  A masked column assignment `msgs.loc[mask, col] = v` is a
sequential overwrite; a column's final value is therefore computed by
testing the masks in reverse source order (the last assignment whose
mask holds wins). -/

/-- The columns of a classified message consulted by the race-relevance
masks (the quantity and execution-price columns only feed the `Qty` and
`BestExec` outputs, which these claims do not touch). -/
structure ClassifiedMsg where
  QuoteRelated : Bool
  Side : String
  UnifiedMessageType : String
  Event : String
  BidEvent : String
  AskEvent : String
  PriceLvl : Option Int
  PrevPriceLvl : Option Int
  AskPriceLvl : Option Int
  PrevAskPriceLvl : Option Int
  BidPriceLvl : Option Int
  PrevBidPriceLvl : Option Int
  deriving DecidableEq

/-- Pandas-style `>` on possibly-missing values. -/
def optGT (a b : Option Int) : Bool := optLT b a

/-- `Prep_Race_Data.py` line 78. -/
def is_qr (m : ClassifiedMsg) : Bool := m.QuoteRelated

/-- `Prep_Race_Data.py` line 81. -/
def side_ask (m : ClassifiedMsg) : Bool := m.Side == "Ask"

/-- `Prep_Race_Data.py` line 82. -/
def side_bid (m : ClassifiedMsg) : Bool := m.Side == "Bid"

/-- `Prep_Race_Data.py` line 86: non-quote-related Gateway Cancel. -/
def canc (m : ClassifiedMsg) : Bool :=
  m.UnifiedMessageType == "Gateway Cancel" && !is_qr m

/-- `Prep_Race_Data.py` line 89. -/
def new_limit (m : ClassifiedMsg) : Bool :=
  m.UnifiedMessageType == "Gateway New Order (Limit)"

/-- `Prep_Race_Data.py` line 94 (IOC includes FOK). -/
def new_ioc (m : ClassifiedMsg) : Bool :=
  m.UnifiedMessageType == "Gateway New Order (IOC)"

/-- `Prep_Race_Data.py` line 97. -/
def new_mkt (m : ClassifiedMsg) : Bool :=
  m.UnifiedMessageType == "Gateway New Order (Market)"

/-- `Prep_Race_Data.py` line 100. -/
def crep (m : ClassifiedMsg) : Bool :=
  m.UnifiedMessageType == "Gateway Cancel/Replace"

/-- `Prep_Race_Data.py` line 103. -/
def new_quote (m : ClassifiedMsg) : Bool :=
  m.UnifiedMessageType == "Gateway New Quote"

/-- `Prep_Race_Data.py` lines 109–118: validity slicers. -/
def valid_prices (m : ClassifiedMsg) : Bool :=
  m.PrevPriceLvl.isSome && m.PriceLvl.isSome

/-- Previous (non-quote) price present. -/
def valid_prev_price (m : ClassifiedMsg) : Bool := m.PrevPriceLvl.isSome

/-- Ask price present. -/
def valid_ask_price (m : ClassifiedMsg) : Bool := m.AskPriceLvl.isSome

/-- Bid price present. -/
def valid_bid_price (m : ClassifiedMsg) : Bool := m.BidPriceLvl.isSome

/-- Previous ask price present. -/
def valid_prev_ask_price (m : ClassifiedMsg) : Bool := m.PrevAskPriceLvl.isSome

/-- Previous bid price present. -/
def valid_prev_bid_price (m : ClassifiedMsg) : Bool := m.PrevBidPriceLvl.isSome

/-- Both ask prices present. -/
def valid_ask_prices (m : ClassifiedMsg) : Bool :=
  m.PrevAskPriceLvl.isSome && m.AskPriceLvl.isSome

/-- Both bid prices present. -/
def valid_bid_prices (m : ClassifiedMsg) : Bool :=
  m.PrevBidPriceLvl.isSome && m.BidPriceLvl.isSome

/-! ### `gen_ask_races_fields` (`Prep_Race_Data.py` lines 207–391) -/

/-- Lines 231–233. -/
def canc_ask (m : ClassifiedMsg) : Bool :=
  canc m && valid_prev_price m && side_ask m &&
    ["Cancel request accepted", "Cancel request rejected",
     "Cancel no response"].contains m.Event

/-- Lines 238–240 (quote-related cancel viewed from the ask side). -/
def canc_qr_ask (m : ClassifiedMsg) : Bool :=
  valid_prev_ask_price m &&
    ["Quote cancel accepted", "Quote cancel rejected",
     "Quote cancel no response"].contains m.AskEvent

/-- Lines 244–247. -/
def new_limit_bid (m : ClassifiedMsg) : Bool :=
  new_limit m && side_bid m &&
    ["New order aggressively executed in full",
     "New order aggressively executed in part",
     "New order accepted", "New order no response"].contains m.Event

/-- Lines 250–253. -/
def new_ioc_bid (m : ClassifiedMsg) : Bool :=
  new_ioc m && side_bid m &&
    ["New order aggressively executed in full",
     "New order aggressively executed in part",
     "New order expired", "New order no response"].contains m.Event

/-- Lines 256–258. -/
def new_mkt_bid (m : ClassifiedMsg) : Bool :=
  new_mkt m && side_bid m &&
    ["New order aggressively executed in full",
     "New order aggressively executed in part",
     "New order no response"].contains m.Event

/-- Lines 263–266. -/
def crep_wrs_ask (m : ClassifiedMsg) : Bool :=
  crep m && side_ask m && valid_prices m && optLT m.PrevPriceLvl m.PriceLvl &&
    ["Cancel/replace request accepted", "Cancel/replace request rejected",
     "Cancel/replace no response"].contains m.Event

/-- Lines 267–271.  Note the event labels tested here:
`'Cancel/replace aggressively executed in full/part'`. -/
def crep_impr_bid (m : ClassifiedMsg) : Bool :=
  crep m && side_bid m && valid_prices m && optLT m.PrevPriceLvl m.PriceLvl &&
    ["Cancel/replace aggressively executed in full",
     "Cancel/replace aggressively executed in part",
     "Cancel/replace request accepted",
     "Cancel/replace no response"].contains m.Event

/-- Lines 279–282. -/
def new_quote_wrs_ask (m : ClassifiedMsg) : Bool :=
  new_quote m && valid_ask_prices m && optLT m.PrevAskPriceLvl m.AskPriceLvl &&
    ["New quote updated", "New quote accepted",
     "New quote no response"].contains m.AskEvent

/-- Lines 283–288.  The price test is transcribed literally:
`(msgs['PrevBidPriceLvl'].notnull()) | (msgs['PrevBidPriceLvl'] <
msgs['BidPriceLvl'])`. -/
def new_quote_impr_bid (m : ClassifiedMsg) : Bool :=
  new_quote m && valid_bid_price m &&
    (m.PrevBidPriceLvl.isSome || optLT m.PrevBidPriceLvl m.BidPriceLvl) &&
    ["New quote aggressively executed in full",
     "New quote aggressively executed in part",
     "New quote updated", "New quote accepted",
     "New quote no response"].contains m.BidEvent

/-- Line 308. -/
def ask_race_msgs_cancels (m : ClassifiedMsg) : Bool := canc_ask m || crep_wrs_ask m

/-- Line 309. -/
def ask_race_msgs_cancels_qr (m : ClassifiedMsg) : Bool :=
  new_quote_wrs_ask m || canc_qr_ask m

/-- Line 347. -/
def ask_race_msgs_takes_nmkt (m : ClassifiedMsg) : Bool :=
  new_limit_bid m || new_ioc_bid m || crep_impr_bid m

/-- Line 348. -/
def ask_race_msgs_takes (m : ClassifiedMsg) : Bool :=
  ask_race_msgs_takes_nmkt m || new_mkt_bid m

/-- Line 349. -/
def ask_race_msgs_takes_qr (m : ClassifiedMsg) : Bool := new_quote_impr_bid m

/-- `AskRaceRlvt` (lines 303–305). -/
def AskRaceRlvt (m : ClassifiedMsg) : Bool :=
  canc_ask m || canc_qr_ask m || new_limit_bid m || new_mkt_bid m ||
    crep_wrs_ask m || crep_impr_bid m || new_ioc_bid m || new_quote_wrs_ask m ||
    new_quote_impr_bid m

/-- `AskRaceRlvtType` (lines 293, 310, 350): initialized to `None`, set to
`'Cancel Attempt'` on the cancel masks, then overwritten with
`'Take Attempt'` on the take masks. -/
def AskRaceRlvtType (m : ClassifiedMsg) : Option String :=
  if ask_race_msgs_takes m || ask_race_msgs_takes_qr m then some "Take Attempt"
  else if ask_race_msgs_cancels m || ask_race_msgs_cancels_qr m then some "Cancel Attempt"
  else none

/-- `AskRaceRlvtOutcomeGroup` at the end of `gen_ask_races_fields`
(lines 299, 322–338, 367–384): the thirteen masked assignments applied in
source order, tested here in reverse order. -/
def AskRaceRlvtOutcomeGroup_askPass (m : ClassifiedMsg) : String :=
  if ask_race_msgs_takes m &&
      ["New order no response", "Cancel/replace no response"].contains m.Event then "Unknown"
  else if ask_race_msgs_takes_qr m && m.BidEvent == "New quote no response" then "Unknown"
  else if ask_race_msgs_takes_qr m &&
      ["New quote updated", "New quote accepted"].contains m.BidEvent then "Fail"
  else if ask_race_msgs_takes_nmkt m &&
      ["New order accepted", "New order expired",
       "Cancel/replace request accepted"].contains m.Event then "Fail"
  else if ask_race_msgs_takes_qr m &&
      ["New quote aggressively executed in full",
       "New quote aggressively executed in part"].contains m.BidEvent then
    "Race Price Dependent"
  else if ask_race_msgs_takes m &&
      ["New order aggressively executed in full",
       "New order aggressively executed in part",
       "Cancel/replace aggressively executed in full",
       "Cancel/replace aggressively executed in part"].contains m.Event then
    "Race Price Dependent"
  else if ask_race_msgs_cancels_qr m &&
      ["New quote accepted", "New quote no response",
       "Quote cancel no response"].contains m.AskEvent then "Unknown"
  else if ask_race_msgs_cancels m &&
      ["Cancel no response", "Cancel/replace no response"].contains m.Event then "Unknown"
  else if canc_qr_ask m && m.AskEvent == "Quote cancel rejected" then "Fail"
  else if ask_race_msgs_cancels m &&
      ["Cancel request rejected", "Cancel/replace request rejected"].contains m.Event then "Fail"
  else if ask_race_msgs_cancels_qr m &&
      ["Quote cancel accepted", "New quote updated"].contains m.AskEvent then "Success"
  else if ask_race_msgs_cancels m &&
      ["Cancel request accepted", "Cancel/replace request accepted"].contains m.Event then
    "Success"
  else "Unknown"

/-! ### `gen_bid_races_fields` (`Prep_Race_Data.py` lines 393–572), the
masks that feed its writes into the `AskRaceRlvtOutcomeGroup` column -/

/-- Lines 418–420. -/
def canc_bid (m : ClassifiedMsg) : Bool :=
  canc m && valid_prev_price m && side_bid m &&
    ["Cancel request accepted", "Cancel request rejected",
     "Cancel no response"].contains m.Event

/-- Lines 425–427. -/
def canc_qr_bid (m : ClassifiedMsg) : Bool :=
  valid_prev_bid_price m &&
    ["Quote cancel accepted", "Quote cancel rejected",
     "Quote cancel no response"].contains m.BidEvent

/-- Lines 431–434. -/
def new_limit_ask (m : ClassifiedMsg) : Bool :=
  new_limit m && side_ask m &&
    ["New order aggressively executed in full",
     "New order aggressively executed in part",
     "New order accepted", "New order no response"].contains m.Event

/-- Lines 437–440. -/
def new_ioc_ask (m : ClassifiedMsg) : Bool :=
  new_ioc m && side_ask m &&
    ["New order aggressively executed in full",
     "New order aggressively executed in part",
     "New order expired", "New order no response"].contains m.Event

/-- Lines 443–445. -/
def new_mkt_ask (m : ClassifiedMsg) : Bool :=
  new_mkt m && side_ask m &&
    ["New order aggressively executed in full",
     "New order aggressively executed in part",
     "New order no response"].contains m.Event

/-- Lines 449–452. -/
def crep_impr_ask (m : ClassifiedMsg) : Bool :=
  crep m && side_ask m && valid_prices m && optGT m.PrevPriceLvl m.PriceLvl &&
    ["Cancel/replace aggressively executed in full",
     "Cancel/replace aggressively executed in part",
     "Cancel/replace request accepted",
     "Cancel/replace no response"].contains m.Event

/-- Lines 453–455. -/
def crep_wrs_bid (m : ClassifiedMsg) : Bool :=
  crep m && side_bid m && valid_prices m && optGT m.PrevPriceLvl m.PriceLvl &&
    ["Cancel/replace request accepted", "Cancel/replace request rejected",
     "Cancel/replace no response"].contains m.Event

/-- Lines 460–462. -/
def new_quote_wrs_bid (m : ClassifiedMsg) : Bool :=
  new_quote m && valid_bid_prices m && optGT m.PrevBidPriceLvl m.BidPriceLvl &&
    ["New quote updated", "New quote accepted",
     "New quote no response"].contains m.BidEvent

/-- Lines 463–468 (with the same literal `notnull()` disjunct as the bid
mirror). -/
def new_quote_impr_ask (m : ClassifiedMsg) : Bool :=
  new_quote m && valid_ask_price m &&
    (m.PrevAskPriceLvl.isSome || optGT m.PrevAskPriceLvl m.AskPriceLvl) &&
    ["New quote aggressively executed in full",
     "New quote aggressively executed in part",
     "New quote updated", "New quote accepted",
     "New quote no response"].contains m.AskEvent

/-- Line 489. -/
def bid_race_msgs_cancels (m : ClassifiedMsg) : Bool := canc_bid m || crep_wrs_bid m

/-- Line 490. -/
def bid_race_msgs_cancels_qr (m : ClassifiedMsg) : Bool :=
  new_quote_wrs_bid m || canc_qr_bid m

/-- Line 529. -/
def bid_race_msgs_takes_nmkt (m : ClassifiedMsg) : Bool :=
  crep_impr_ask m || new_limit_ask m || new_ioc_ask m

/-- Line 530. -/
def bid_race_msgs_takes (m : ClassifiedMsg) : Bool :=
  bid_race_msgs_takes_nmkt m || new_mkt_ask m

/-- Line 531. -/
def bid_race_msgs_takes_qr (m : ClassifiedMsg) : Bool := new_quote_impr_ask m

/-- `AskRaceRlvtOutcomeGroup` after `prepare_data` has run both passes:
`gen_bid_races_fields` performs four further masked writes into this
column — its "Set Unknown" assignments at lines 516–518, 519–520, 563 and
564–565 name `'AskRaceRlvtOutcomeGroup'` — which overwrite the value left
by the ask pass. -/
def AskRaceRlvtOutcomeGroup_afterPrep (m : ClassifiedMsg) : String :=
  if bid_race_msgs_takes m &&
      ["New order no response", "Cancel/replace no response"].contains m.Event then "Unknown"
  else if bid_race_msgs_takes_qr m && m.AskEvent == "New quote no response" then "Unknown"
  else if bid_race_msgs_cancels_qr m &&
      ["Cancel no response", "Cancel/replace no response"].contains m.Event then "Unknown"
  else if bid_race_msgs_cancels_qr m &&
      ["New quote accepted", "New quote no response",
       "Quote cancel no response"].contains m.BidEvent then "Unknown"
  else AskRaceRlvtOutcomeGroup_askPass m

/-! Concrete messages for the `Prep_Race_Data` claims. -/

/-- A `New Quote` whose bid side strictly worsens (previous bid 10.00,
new bid 9.00, in price-factor units) with a qualifying bid event. -/
def mC5worse : ClassifiedMsg :=
  ⟨true, "Bid", "Gateway New Quote", "", "New quote updated", "",
   none, none, none, none, some 9000000, some 10000000⟩

/-- A `New Quote` whose previous bid price is missing (a fresh,
improving bid side) with a qualifying bid event. -/
def mC5missing : ClassifiedMsg :=
  ⟨true, "Bid", "Gateway New Quote", "", "New quote updated", "",
   none, none, none, none, some 11000000, none⟩

/-- A price-improving bid-side Cancel/Replace carrying the event label
the classifier actually emits for an aggressive full execution. -/
def mC6 : ClassifiedMsg :=
  ⟨false, "Bid", "Gateway Cancel/Replace",
   "Cancel/replace request aggr executed in full", "", "",
   some 11000000, some 10000000, none, none, none, none⟩

/-- The same Cancel/Replace carrying instead the label that
`gen_ask_races_fields` tests for. -/
def mC6expected : ClassifiedMsg :=
  ⟨false, "Bid", "Gateway Cancel/Replace",
   "Cancel/replace aggressively executed in full", "", "",
   some 11000000, some 10000000, none, none, none, none⟩

/-- A quote-related cancel whose ask side is accepted while its bid side
gets no response. -/
def mC7 : ClassifiedMsg :=
  ⟨true, "Bid", "Gateway Cancel", "", "Quote cancel no response",
   "Quote cancel accepted", none, none, none, some 10000000, none, some 9000000⟩

/-! ## The classifier lookahead loops of `Classify_Messages.py`

The claims concern the inner lookahead loops that resolve a new-order or
cancel/replace inbound `i` against its subsequent outbounds.  A loop
iterates over the order's remaining messages, skipping messages that are
already categorized or carry a different `ClientOrderID`, and returns the
`Event` assigned to `i` together with `i`'s `MinExecPriceLvl` /
`MaxExecPriceLvl` and the corner-case counters it increments.  (The
shadow-order bookkeeping `order.update_me(...)` performed alongside does
not feed these outputs and is not modelled.) -/

/-- The columns of one order message read by the lookahead loops. -/
structure OMsg where
  umt : String
  messageType : String
  clientOrderID : Nat
  categorized : Bool
  executedPrice : Option Int
  deriving DecidableEq

/-- The outputs of a lookahead relevant to the claims: inbound `i`'s
`Event`, `MinExecPriceLvl`, `MaxExecPriceLvl`, and the
`pf_no_further_reply` / `partial_other_me` counter increments. -/
structure LookaheadResult where
  event : String
  minExec : Option Int
  maxExec : Option Int
  pf_no_further_reply : Nat
  partial_other_me : Nat
  deriving DecidableEq

/-- The `for k in ...` loop entered after a new-order inbound `i` sees an
aggressive partial fill (`Classify_Messages.py` lines 525–618), with the
executed prices accumulated so far (initially the first partial fill's
price).  `iIsIOC` is `UnifiedMessageType(i) == 'Gateway New Order (IOC)'`.
Exhaustion without a terminal outbound is the lines 613–618 case: event
`'New order aggressively executed in part'`, min/max of the accumulated
prices, and a `pf_no_further_reply` increment. -/
def newOrderPartialLoop (iIsIOC : Bool) (cid : Nat)
    (executed_prices : List (Option Int)) : List OMsg → LookaheadResult
  | [] =>
    ⟨"New order aggressively executed in part", pymin executed_prices,
     pymax executed_prices, 1, 0⟩
  | k :: rest =>
    if k.categorized ∨ k.clientOrderID ≠ cid then
      newOrderPartialLoop iIsIOC cid executed_prices rest
    else if k.umt = "ME: Full Fill (A)" then
      ⟨"New order aggressively executed in full",
       pymin (executed_prices ++ [k.executedPrice]),
       pymax (executed_prices ++ [k.executedPrice]), 0, 0⟩
    else if k.umt = "ME: Partial Fill (A)" then
      newOrderPartialLoop iIsIOC cid (executed_prices ++ [k.executedPrice]) rest
    else if k.umt = "ME: Order Expire" ∧ iIsIOC then
      ⟨"New order aggressively executed in part", pymin executed_prices,
       pymax executed_prices, 0, 0⟩
    else if k.umt = "ME: New Order Accept" then
      ⟨"New order aggressively executed in full",
       pymin (executed_prices ++ [k.executedPrice]),
       pymax (executed_prices ++ [k.executedPrice]), 0, 0⟩
    else if k.messageType = "Execution_Report" then
      ⟨"New order aggressively executed in part", pymin executed_prices,
       pymax executed_prices, 0, 1⟩
    else newOrderPartialLoop iIsIOC cid executed_prices rest

/-- A message the `k` loop does not skip (line 529). -/
abbrev kRelevant (cid : Nat) (k : OMsg) : Prop :=
  ¬(k.categorized ∨ k.clientOrderID ≠ cid)

/-- A message at which the `k` loop of lines 525–618 terminates (one of
its branches fires with `resolved_j = True`): an aggressive full fill, an
order expire on an IOC inbound, a new-order accept, or any other
execution report — all tested after the partial-fill branch. -/
abbrev kTerminal (iIsIOC : Bool) (k : OMsg) : Prop :=
  k.umt = "ME: Full Fill (A)" ∨
    (k.umt ≠ "ME: Partial Fill (A)" ∧
      ((k.umt = "ME: Order Expire" ∧ iIsIOC = true) ∨
        k.umt = "ME: New Order Accept" ∨ k.messageType = "Execution_Report"))

/-- The executed prices of the relevant aggressive partial fills in a
message list, in order. -/
def collectPartialPrices (cid : Nat) : List OMsg → List (Option Int)
  | [] => []
  | k :: rest =>
    if ¬(k.categorized ∨ k.clientOrderID ≠ cid) ∧ k.umt = "ME: Partial Fill (A)" then
      k.executedPrice :: collectPartialPrices cid rest
    else collectPartialPrices cid rest

/-- The `for l in ...` loop entered after a cancel/replace accept is
followed by an aggressive partial fill (`Classify_Messages.py` lines
797–852). -/
def crPartialLoop (cid : Nat) (executed_prices : List (Option Int)) :
    List OMsg → LookaheadResult
  | [] =>
    ⟨"Cancel/replace request aggr executed in part", pymin executed_prices,
     pymax executed_prices, 0, 0⟩
  | l :: rest =>
    if l.categorized ∨ l.clientOrderID ≠ cid then
      crPartialLoop cid executed_prices rest
    else if l.umt = "ME: Full Fill (A)" then
      ⟨"Cancel/replace request aggr executed in full",
       pymin (executed_prices ++ [l.executedPrice]),
       pymax (executed_prices ++ [l.executedPrice]), 0, 0⟩
    else if l.umt = "ME: Partial Fill (A)" then
      crPartialLoop cid (executed_prices ++ [l.executedPrice]) rest
    else if l.messageType = "Execution_Report" then
      ⟨"Cancel/replace request aggr executed in part", pymin executed_prices,
       pymax executed_prices, 0, 1⟩
    else crPartialLoop cid executed_prices rest

/-- The `for k in ...` loop entered after a cancel/replace inbound `i`
is answered by `ME: Cancel/Replace Accept` at `j`
(`Classify_Messages.py` lines 769–876).  `jExecutedPrice` is
`msgs.at[j, 'ExecutedPrice']` — the ExecutedPrice column OF THE ACCEPT
MESSAGE `j`, which is what the full-fill branch at lines 780–781 assigns
to `i`'s `MinExecPriceLvl` / `MaxExecPriceLvl` (the branch reads `j`,
not the full-fill message `k`).  Exhaustion or another execution report
leaves the event as `'Cancel/replace request accepted'` with no
execution prices. -/
def crAfterAcceptLoop (cid : Nat) (jExecutedPrice : Option Int) :
    List OMsg → LookaheadResult
  | [] => ⟨"Cancel/replace request accepted", none, none, 0, 0⟩
  | k :: rest =>
    if k.categorized ∨ k.clientOrderID ≠ cid then
      crAfterAcceptLoop cid jExecutedPrice rest
    else if k.umt = "ME: Full Fill (A)" then
      ⟨"Cancel/replace request aggr executed in full", jExecutedPrice, jExecutedPrice, 0, 0⟩
    else if k.umt = "ME: Partial Fill (A)" then
      crPartialLoop cid [k.executedPrice] rest
    else if k.messageType = "Execution_Report" then
      ⟨"Cancel/replace request accepted", none, none, 0, 0⟩
    else crAfterAcceptLoop cid jExecutedPrice rest

/-- The aggressive full fill that directly follows a cancel/replace
accept in the C8 scenario (executed price 10.00 at price factor 10^6). -/
def kC8fill : OMsg := ⟨"ME: Full Fill (A)", "Execution_Report", 7, false, some 10000000⟩

/-- A second aggressive partial fill at 10.01, for the C9 witness. -/
def kC9fill : OMsg := ⟨"ME: Partial Fill (A)", "Execution_Report", 3, false, some 10010000⟩

/-- A gateway message with the same `ClientOrderID` (silently skipped by
the lookahead), for the C9 witness. -/
def kC9gw : OMsg := ⟨"Gateway Cancel", "Cancel_Request", 3, false, none⟩

/-! ## `OrderBook.Correctlvl` (`OrderBook/OrderBook.py` lines 131–156)

`Correctlvl` reads and mutates only the `correct_side` components of the
book: the `curr_disp[correct_side]` and `curr_total[correct_side]`
price→quantity dictionaries (embedded as association lists) and the
cached best price of that side.  `UpdateKillLvl` (lines 158–167) empties
a level and, through `UpdateBBO` with `NaN` quantities and `clean_book`,
removes its price from both dictionaries.  The `Corrections_*` /
`DepthKilled` counters are diagnostics and are not modelled. -/

/-- The two per-price dictionaries of one book side. -/
structure BookSide where
  currDisp : List (Int × Int)
  currTotal : List (Int × Int)
  deriving DecidableEq

/-- `np.array(list(d.keys())).max()`: maximum of a key list, `none` when
empty (the cached best is `NaN` for an empty side). -/
def keyMax : List Int → Option Int
  | [] => none
  | x :: xs =>
    match keyMax xs with
    | none => some x
    | some y => some (max x y)

/-- `np.array(list(d.keys())).min()`. -/
def keyMin : List Int → Option Int
  | [] => none
  | x :: xs =>
    match keyMin xs with
    | none => some x
    | some y => some (min x y)

/-- The cached best price of the correction side (`self.best_bid` /
`self.best_ask`), which `calculate_bbo` keeps equal to the max (bid) or
min (ask) of the side's displayed keys. -/
def bestOf (correct_side : String) (lvls : List (Int × Int)) : Option Int :=
  if correct_side = "Bid" then keyMax (lvls.map Prod.fst)
  else keyMin (lvls.map Prod.fst)

/-- The kill comparison of `Correctlvl` (lines 136–140 and 144–145 /
152–153): on the bid side `strict` kills `> P` and weak kills `≥ P`; on
the ask side `strict` kills `< P` and weak kills `≤ P`. -/
def killCond (correct_side : String) (strictKill : Bool) (plvl P : Int) : Bool :=
  if correct_side = "Bid" then
    (if strictKill then decide (P < plvl) else decide (P ≤ plvl))
  else if correct_side = "Ask" then
    (if strictKill then decide (plvl < P) else decide (plvl ≤ P))
  else false

/-- `UpdateKillLvl` followed by `UpdateBBO(NaN)`/`clean_book`: the price
level disappears from both dictionaries of the side. -/
def killLvl (plvl : Int) (bk : BookSide) : BookSide :=
  ⟨bk.currDisp.filter fun pq => decide (pq.1 ≠ plvl),
   bk.currTotal.filter fun pq => decide (pq.1 ≠ plvl)⟩

/-- `need_to_kill` / `need_to_kill_h` (lines 135–140): the cached best of
the correction side compared against `P`; a comparison against `NaN`
(empty side) is `False`. -/
def needToKill (correct_side : String) (strictKill : Bool) (P : Int)
    (lvls : List (Int × Int)) : Bool :=
  match bestOf correct_side lvls with
  | none => false
  | some b => killCond correct_side strictKill b P

/-- `OrderBook.Correctlvl(P, correct_side, correct_type, strict, k)`:
snapshot the displayed and total key lists (lines 133–134), and — when
`P > 0` and the side crosses `P` — kill every snapshotted level
satisfying the kill comparison, first over the displayed snapshot (lines
142–148), then over the total snapshot (lines 150–156); each
`UpdateKillLvl` removes the level from both dictionaries. -/
def Correctlvl (P : Int) (correct_side : String) (strictKill : Bool)
    (bk : BookSide) : BookSide :=
  let bk1 :=
    if 0 < P ∧ needToKill correct_side strictKill P bk.currDisp = true then
      (bk.currDisp.map Prod.fst).foldl
        (fun bb plvl => if killCond correct_side strictKill plvl P then killLvl plvl bb else bb)
        bk
    else bk
  if 0 < P ∧ needToKill correct_side strictKill P bk.currTotal = true then
    (bk.currTotal.map Prod.fst).foldl
      (fun bb plvl => if killCond correct_side strictKill plvl P then killLvl plvl bb else bb)
      bk1
  else bk1

/-- A book side holding a single level resting exactly at price 100. -/
def bkC4 : BookSide := ⟨[(100, 5)], [(100, 5)]⟩

/-! ## Price-scale arithmetic (`Classify_Messages.py` lines 149–151,
`Prep_Order_Book.py` lines 826–836) -/

/-- Round half to even (NumPy/pandas `.round()` tie-breaking). -/
def roundHalfEven (q : ℚ) : ℤ :=
  if q - ⌊q⌋ < 1 / 2 then ⌊q⌋
  else if 1 / 2 < q - ⌊q⌋ then ⌊q⌋ + 1
  else if ⌊q⌋ % 2 = 0 then ⌊q⌋ else ⌊q⌋ + 1

/-- Ingest conversion of a raw decimal price
(`(price_factor * msgs[col]).round(-1)`, `Classify_Messages.py` line
151): scale by the price factor and round to the nearest multiple of 10
(banker's rounding at the tens digit). -/
def ingestPrice (price_factor : Int) (price : ℚ) : Int :=
  10 * roundHalfEven (price_factor * price / 10)

/-- `Spread = BestAsk - BestBid` (`Prep_Order_Book.py` line 831). -/
def spreadOf (bestBid bestAsk : Int) : Int := bestAsk - bestBid

/-- `MidPt = (BestBid + BestAsk) // 2` (`Prep_Order_Book.py` line 832):
Python `//` is floor division. -/
def midPtOf (bestBid bestAsk : Int) : Int := (bestBid + bestAsk).fdiv 2

end HFTRaces

/-! ### First tests (scratch-level sanity, kept as closed lemmas) -/

namespace HFTRaces

example : GetTakeOutcome (some 10) "Race Price Dependent" (some 10)
    "Gateway New Order (Limit)" "GoodTill" false = "Success" := by decide

example : GetTakeOutcome (some 10) "Race Price Dependent" (some 11)
    "Gateway New Order (IOC)" "IOC" true = "Unknown" := by decide

example : get_price_lvls 100 120 [(0, 10)] = [100, 110, 120] := by decide

/-- The price-level loop of `pricesLoop` preserves the non-overlap
invariants: pairwise non-overlap of the emitted records, the side tag,
the link between records and the previous-race dictionary, and the bound
on dictionary timestamps. -/
theorem pricesLoop_inv (rp : RaceParam) (side : String) (m : RMsg) (rest : List RMsg)
    (ps : List (Option Int)) :
    ∀ (prev : PrevMap) (recs : List RaceRec),
      recs.Pairwise RaceNonOverlap →
      (∀ r ∈ recs, r.side = side) →
      PrevLinked prev recs →
      PrevFuture prev m.ts →
      (pricesLoop rp side m rest ps prev recs).2.Pairwise RaceNonOverlap ∧
        (∀ r ∈ (pricesLoop rp side m rest ps prev recs).2, r.side = side) ∧
        PrevLinked (pricesLoop rp side m rest ps prev recs).1
          (pricesLoop rp side m rest ps prev recs).2 ∧
        PrevFuture (pricesLoop rp side m rest ps prev recs).1 m.ts := by
  induction ps with
  | nil =>
    intro prev recs hpw hside hlink hfut
    exact ⟨hpw, hside, hlink, hfut⟩
  | cons p ps ih =>
    intro prev recs hpw hside hlink hfut
    by_cases hg : raceGuardOk prev p m.ts = true
    · by_cases hra : is_a_race p ((m :: gatherSeq m.ts (raceHorizon rp m) p rest).map
          fun x => (x, GetOutcome p rp.strict_fail x)) rp = true
      · -- a record is emitted for price p
        have key : ∀ r ∈ recs, r.p = p → r.ts + r.horizon < m.ts := by
          intro r hr hrp
          obtain ⟨t0, h0, hlk, hcase⟩ := hlink r hr
          rw [hrp] at hlk
          have hguard : t0 + h0 < m.ts := by
            unfold raceGuardOk at hg
            rw [hlk] at hg
            exact of_decide_eq_true hg
          rcases hcase with ⟨ht, hh⟩ | hlt
          · omega
          · have hle : t0 ≤ m.ts := hfut p t0 h0 hlk
            omega
        have hpw' : (recs ++ [(⟨side, m.ix, m.ts, p, raceHorizon rp m,
            (m :: gatherSeq m.ts (raceHorizon rp m) p rest).map RMsg.ix⟩ :
            RaceRec)]).Pairwise RaceNonOverlap := by
          rw [List.pairwise_append]
          refine ⟨hpw, List.pairwise_singleton _ _, ?_⟩
          intro r hr r2 hr2
          rw [List.mem_singleton] at hr2
          subst hr2
          intro _ hp2
          exact key r hr hp2
        have hside' : ∀ r ∈ recs ++ [(⟨side, m.ix, m.ts, p, raceHorizon rp m,
            (m :: gatherSeq m.ts (raceHorizon rp m) p rest).map RMsg.ix⟩ :
            RaceRec)], r.side = side := by
          intro r hr
          rcases List.mem_append.mp hr with h | h
          · exact hside r h
          · rw [List.mem_singleton] at h
            subst h
            rfl
        have hlink' : PrevLinked ((p, m.ts, raceHorizon rp m) :: prev)
            (recs ++ [(⟨side, m.ix, m.ts, p, raceHorizon rp m,
              (m :: gatherSeq m.ts (raceHorizon rp m) p rest).map RMsg.ix⟩ :
              RaceRec)]) := by
          intro r hr
          rcases List.mem_append.mp hr with h | h
          · by_cases hrp : r.p = p
            · exact ⟨m.ts, raceHorizon rp m, by simp [pmLookup, hrp],
                Or.inr (key r h hrp)⟩
            · obtain ⟨t0, h0, hlk, hcase⟩ := hlink r h
              have hne : ¬(p = r.p) := fun hcontra => hrp hcontra.symm
              exact ⟨t0, h0, by simp [pmLookup, hne, hlk], hcase⟩
          · rw [List.mem_singleton] at h
            subst h
            exact ⟨m.ts, raceHorizon rp m, by simp [pmLookup], Or.inl ⟨rfl, rfl⟩⟩
        have hfut' : PrevFuture ((p, m.ts, raceHorizon rp m) :: prev) m.ts := by
          intro q t0 h0 hlk
          by_cases hq : p = q
          · simp [pmLookup, hq] at hlk
            omega
          · simp [pmLookup, hq] at hlk
            exact hfut q t0 h0 hlk
        have hrec := ih ((p, m.ts, raceHorizon rp m) :: prev)
          (recs ++ [(⟨side, m.ix, m.ts, p, raceHorizon rp m,
            (m :: gatherSeq m.ts (raceHorizon rp m) p rest).map RMsg.ix⟩ :
            RaceRec)]) hpw' hside' hlink' hfut'
        simpa only [pricesLoop, if_pos hg, if_pos hra] using hrec
      · have hrec := ih prev recs hpw hside hlink hfut
        simpa only [pricesLoop, if_pos hg, if_neg hra] using hrec
    · have hrec := ih prev recs hpw hside hlink hfut
      simpa only [pricesLoop, if_neg hg] using hrec

/-- The outer message loop of `find_single_lvl_races` preserves pairwise
non-overlap of the emitted records together with their side tag, given
that the remaining messages are sorted by timestamp. -/
theorem raceScan_inv (rp : RaceParam) (tb : List (Int × Int)) (side : String) :
    ∀ (msgs : List RMsg) (prev : PrevMap) (recs : List RaceRec),
      msgs.Pairwise (fun a b => a.ts ≤ b.ts) →
      recs.Pairwise RaceNonOverlap →
      (∀ r ∈ recs, r.side = side) →
      PrevLinked prev recs →
      (∀ x ∈ msgs, PrevFuture prev x.ts) →
      (raceScan rp tb side msgs prev recs).Pairwise RaceNonOverlap ∧
        ∀ r ∈ raceScan rp tb side msgs prev recs, r.side = side := by
  intro msgs
  induction msgs with
  | nil =>
    intro prev recs _ hpw hside _ _
    exact ⟨hpw, hside⟩
  | cons m rest ih =>
    intro prev recs hsorted hpw hside hlink hfut
    have hfm : PrevFuture prev m.ts := hfut m (List.mem_cons_self m rest)
    obtain ⟨hpw', hside', hlink', hfut'⟩ :=
      pricesLoop_inv rp side m rest (candidatePrices tb m) prev recs hpw hside hlink hfm
    have hsorted' : rest.Pairwise (fun a b => a.ts ≤ b.ts) := hsorted.of_cons
    have hm_rest : ∀ x ∈ rest, m.ts ≤ x.ts := fun x hx =>
      List.rel_of_pairwise_cons hsorted hx
    have hfut'' : ∀ x ∈ rest,
        PrevFuture (pricesLoop rp side m rest (candidatePrices tb m) prev recs).1 x.ts := by
      intro x hx q t0 h0 hlk
      exact le_trans (hfut' q t0 h0 hlk) (hm_rest x hx)
    have hrec := ih (pricesLoop rp side m rest (candidatePrices tb m) prev recs).1
      (pricesLoop rp side m rest (candidatePrices tb m) prev recs).2
      hsorted' hpw' hside' hlink' hfut''
    simpa only [raceScan] using hrec

/-- C1 (race non-overlap): any two race records emitted by
`find_single_lvl_races` with the same side and the same signed race price
satisfy: the later record's start timestamp strictly exceeds the earlier
record's start timestamp plus the earlier record's horizon.  This follows
from the non-overlap guard — a candidate start `i` at price `p` is
skipped whenever `prev_race_MessageTime[p] + prev_race_horizon[p] ≥
i.timestamp` — together with the fact that the previous-race dictionaries
are updated only when a race is actually emitted.  The hypothesis is the
input invariant that messages are sorted by timestamp. -/
theorem find_single_lvl_races_non_overlap (rp : RaceParam) (tb : List (Int × Int))
    (bidMsgs askMsgs : List RMsg)
    (hbid : bidMsgs.Pairwise fun a b => a.ts ≤ b.ts)
    (hask : askMsgs.Pairwise fun a b => a.ts ≤ b.ts) :
    (find_single_lvl_races rp tb bidMsgs askMsgs).Pairwise RaceNonOverlap := by
  have hempty_link : PrevLinked [] [] := by
    intro r hr
    exact absurd hr (List.not_mem_nil r)
  have hempty_pw : ([] : List RaceRec).Pairwise RaceNonOverlap := List.Pairwise.nil
  have hempty_side : ∀ side : String, ∀ r ∈ ([] : List RaceRec), r.side = side := by
    intro _ r hr
    exact absurd hr (List.not_mem_nil r)
  have hempty_fut : ∀ (msgs : List RMsg), ∀ x ∈ msgs, PrevFuture [] x.ts := by
    intro _ x _ q t0 h0 hlk
    simp [pmLookup] at hlk
  obtain ⟨hpwB, hsideB⟩ := raceScan_inv rp tb "Bid" bidMsgs [] [] hbid hempty_pw
    (hempty_side "Bid") hempty_link (hempty_fut bidMsgs)
  obtain ⟨hpwA, hsideA⟩ := raceScan_inv rp tb "Ask" askMsgs [] [] hask hempty_pw
    (hempty_side "Ask") hempty_link (hempty_fut askMsgs)
  rw [find_single_lvl_races, List.pairwise_append]
  refine ⟨hpwB, hpwA, ?_⟩
  intro r1 h1 r2 h2 hs
  rw [hsideB r1 h1, hsideA r2 h2] at hs
  exact absurd hs (by decide)

/-- Witness for C1: a concrete two-message run (which emits one race
record) at which the non-overlap theorem applies with all hypotheses
discharged. -/
theorem find_single_lvl_races_non_overlap_witness :
    ([mW1, mW2].Pairwise fun a b => a.ts ≤ b.ts) ∧
      (find_single_lvl_races rpW [(0, 10)] [mW1, mW2] []).Pairwise RaceNonOverlap :=
  ⟨by decide, find_single_lvl_races_non_overlap rpW [(0, 10)] [mW1, mW2] []
    (by decide) (by decide)⟩

example : (find_single_lvl_races rpW [(0, 10)] [mW1, mW2] []).length = 1 := by decide

/-- C2: the race-detection stage cannot run at all: the import
`from .Race_Msg_Outcome import get_msg_outcome` at the top of
`Race_Detection_Functions.py` requests a name that `Race_Msg_Outcome.py`
does not define (it defines only `GetTakeOutcome` and `GetOutcome`), so
loading the module raises `ImportError` on every symbol-day, before any
message is processed and before the empty race-record table could be
produced. -/
theorem race_detection_import_fails : raceDetectionImportOk = false := by decide

/-- C3 counterexample: a take attempt whose outcome group is
`Race Price Dependent`, whose best-execution signed price 11 exceeds the
race price 10, and which is an IOC order, resolves to `Unknown` under
`strict_fail = true` — not to `Fail` as the claim states (the IOC test of
`GetTakeOutcome` applies only to the `Fail` outcome group). -/
theorem getTakeOutcome_strict_rpd_counterexample :
    optLE (some 11) (some 10) = false ∧
      GetTakeOutcome (some 10) "Race Price Dependent" (some 11)
        "Gateway New Order (IOC)" "IOC" true ≠ "Fail" := by decide

/-- C3 (amended): for a take attempt whose outcome group is
`Race Price Dependent`, the resolved outcome is `Success` iff the
best-execution signed price is ≤ the race price; otherwise it is `Fail`
when `strict_fail` is false and `Unknown` when `strict_fail` is true
(regardless of whether the message is an IOC). -/
theorem getTakeOutcome_race_price_dependent (P_Signed exec_pr : Option Int)
    (msg_type msg_tif : String) (strict_fail : Bool) (outcome : String)
    (hgrp : outcome = "Race Price Dependent") :
    GetTakeOutcome P_Signed outcome exec_pr msg_type msg_tif strict_fail =
      if optLE exec_pr P_Signed then "Success"
      else if strict_fail then "Unknown" else "Fail" := by
  subst hgrp
  unfold GetTakeOutcome
  cases strict_fail <;> simp

/-- Witness for C3's amended theorem at a concrete input. -/
theorem getTakeOutcome_race_price_dependent_witness :
    ("Race Price Dependent" = "Race Price Dependent") ∧
      GetTakeOutcome (some 10) "Race Price Dependent" (some 11)
          "Gateway New Order (IOC)" "IOC" true =
        (if optLE (some 11) (some 10) then "Success"
         else if true then "Unknown" else "Fail") :=
  ⟨rfl, getTakeOutcome_race_price_dependent (some 10) (some 11)
    "Gateway New Order (IOC)" "IOC" true "Race Price Dependent" rfl⟩

/-- C5: evaluating `gen_ask_races_fields` at the failing inputs.  A
`New Quote` whose bid side strictly worsens (previous bid present and
greater than the new bid) IS tagged as an ask-race `Take Attempt`, while
a quote whose previous bid price is missing (improving from nothing) is
NOT tagged at all: the source tests `PrevBidPriceLvl.notnull()` where the
documented intent ("impr: moving to a better price") requires the price
to be missing or strictly lower. -/
theorem new_quote_ask_take_tagging_bug :
    optGT mC5worse.PrevBidPriceLvl mC5worse.BidPriceLvl = true ∧
      AskRaceRlvt mC5worse = true ∧
      AskRaceRlvtType mC5worse = some "Take Attempt" ∧
      mC5missing.PrevBidPriceLvl = none ∧
      AskRaceRlvt mC5missing = false ∧
      AskRaceRlvtType mC5missing = none := by decide

/-- C6: evaluating the race-relevance pass at a price-improving bid-side
Cancel/Replace whose classified event carries the label the classifier
actually assigns (`'Cancel/replace request aggr executed in full'`, cf.
`Classify_Messages.py` line 779): the message is not flagged race
relevant at all.  With the label `gen_ask_races_fields` tests for
(`'Cancel/replace aggressively executed in full'`) it would be a
`Take Attempt` with outcome group `Race Price Dependent`. -/
theorem crep_aggr_execution_not_race_relevant :
    AskRaceRlvt mC6 = false ∧
      AskRaceRlvtType mC6 = none ∧
      AskRaceRlvtOutcomeGroup_askPass mC6 = "Unknown" ∧
      AskRaceRlvt mC6expected = true ∧
      AskRaceRlvtType mC6expected = some "Take Attempt" ∧
      AskRaceRlvtOutcomeGroup_askPass mC6expected = "Race Price Dependent" := by decide

/-- C7: evaluating `prepare_data` at a quote-related cancel whose
`AskEvent` is `'Quote cancel accepted'` (an ask-race cancel attempt) and
whose `BidEvent` is `'Quote cancel no response'`: the ask pass sets
`AskRaceRlvtOutcomeGroup = 'Success'`, but the bid pass — whose "Set
Unknown" assignment at `Prep_Race_Data.py` lines 516–518 writes into the
`AskRaceRlvtOutcomeGroup` column — overwrites it with `'Unknown'`. -/
theorem quote_cancel_outcome_overwritten_bug :
    mC7.AskEvent = "Quote cancel accepted" ∧
      AskRaceRlvtType mC7 = some "Cancel Attempt" ∧
      AskRaceRlvtOutcomeGroup_askPass mC7 = "Success" ∧
      AskRaceRlvtOutcomeGroup_afterPrep mC7 = "Unknown" := by decide

/-- C8: evaluating the cancel/replace lookahead at a C/R accept `j`
(which, being a pure accept, has no `ExecutedPrice`) directly followed by
an aggressive full fill `k` at 10.00: the event is
`'Cancel/replace request aggr executed in full'`, but `MinExecPriceLvl` /
`MaxExecPriceLvl` are copied from `j`'s (missing) `ExecutedPrice` — lines
780–781 read `msgs.at[j, 'ExecutedPrice']` — instead of the fill `k`'s
executed price. -/
theorem cr_full_fill_exec_price_bug :
    crAfterAcceptLoop 7 none [kC8fill] =
      ⟨"Cancel/replace request aggr executed in full", none, none, 0, 0⟩ ∧
      kC8fill.executedPrice = some 10000000 ∧
      (crAfterAcceptLoop 7 none [kC8fill]).minExec ≠ kC8fill.executedPrice := by decide

/-- C9: if, after one or more aggressive partial fills, the lookahead
exhausts the order's remaining messages without hitting a terminal
outbound (no aggressive full fill, no order-expire on an IOC, no
new-order accept, no other execution report among the relevant
messages), the inbound's event is
`'New order aggressively executed in part'`, its `MinExecPriceLvl` /
`MaxExecPriceLvl` are the min and max of all accumulated executed prices
(the initial ones plus those of the further relevant partial fills), and
the `pf_no_further_reply` corner-case counter is incremented. -/
theorem new_order_partial_fill_exhaustion (iIsIOC : Bool) (cid : Nat)
    (executed_prices : List (Option Int)) (rest : List OMsg)
    (hne : executed_prices ≠ [])
    (hterm : ∀ k ∈ rest, kRelevant cid k → ¬kTerminal iIsIOC k) :
    newOrderPartialLoop iIsIOC cid executed_prices rest =
      ⟨"New order aggressively executed in part",
        pymin (executed_prices ++ collectPartialPrices cid rest),
        pymax (executed_prices ++ collectPartialPrices cid rest), 1, 0⟩ := by
  induction rest generalizing executed_prices with
  | nil => simp [newOrderPartialLoop, collectPartialPrices]
  | cons k rest ih =>
    have hterm' : ∀ k2 ∈ rest, kRelevant cid k2 → ¬kTerminal iIsIOC k2 :=
      fun k2 hk2 => hterm k2 (List.mem_cons_of_mem _ hk2)
    by_cases hskip : k.categorized = true ∨ k.clientOrderID ≠ cid
    · have hcol : collectPartialPrices cid (k :: rest) = collectPartialPrices cid rest := by
        rw [collectPartialPrices, if_neg]
        intro h
        exact h.1 hskip
      simp only [newOrderPartialLoop]
      rw [if_pos hskip, hcol]
      exact ih executed_prices hne hterm'
    · have hrel : kRelevant cid k := hskip
      have hkt : ¬kTerminal iIsIOC k := hterm k (List.mem_cons_self k rest) hrel
      have hff : ¬(k.umt = "ME: Full Fill (A)") := fun h => hkt (Or.inl h)
      by_cases hpf : k.umt = "ME: Partial Fill (A)"
      · have hcol : collectPartialPrices cid (k :: rest) =
            k.executedPrice :: collectPartialPrices cid rest := by
          rw [collectPartialPrices, if_pos ⟨hskip, hpf⟩]
        simp only [newOrderPartialLoop]
        rw [if_neg hskip, if_neg hff, if_pos hpf, hcol,
          ih (executed_prices ++ [k.executedPrice]) (by simp) hterm']
        simp [List.append_assoc]
      · have hexp : ¬(k.umt = "ME: Order Expire" ∧ iIsIOC = true) :=
          fun h => hkt (Or.inr ⟨hpf, Or.inl h⟩)
        have hacc : ¬(k.umt = "ME: New Order Accept") :=
          fun h => hkt (Or.inr ⟨hpf, Or.inr (Or.inl h)⟩)
        have her : ¬(k.messageType = "Execution_Report") :=
          fun h => hkt (Or.inr ⟨hpf, Or.inr (Or.inr h)⟩)
        have hcol : collectPartialPrices cid (k :: rest) = collectPartialPrices cid rest := by
          rw [collectPartialPrices, if_neg]
          intro h
          exact hpf h.2
        simp only [newOrderPartialLoop]
        rw [if_neg hskip, if_neg hff, if_neg hpf, if_neg hexp, if_neg hacc,
          if_neg her, hcol]
        exact ih executed_prices hne hterm'

/-- Witness for C9: one prior partial fill at 10.00, then a further
relevant partial fill at 10.01 and a silently-skipped gateway message;
the lookahead exhausts and resolves to aggressively-executed-in-part. -/
theorem new_order_partial_fill_exhaustion_witness :
    ([some 10000000] ≠ ([] : List (Option Int))) ∧
      (∀ k ∈ [kC9fill, kC9gw], kRelevant 3 k → ¬kTerminal false k) ∧
      newOrderPartialLoop false 3 [some 10000000] [kC9fill, kC9gw] =
        ⟨"New order aggressively executed in part",
          pymin ([some 10000000] ++ collectPartialPrices 3 [kC9fill, kC9gw]),
          pymax ([some 10000000] ++ collectPartialPrices 3 [kC9fill, kC9gw]), 1, 0⟩ :=
  ⟨by decide, by decide,
    new_order_partial_fill_exhaustion false 3 [some 10000000] [kC9fill, kC9gw]
      (by decide) (by decide)⟩

example :
    newOrderPartialLoop false 3 [some 10000000] [kC9fill, kC9gw] =
      ⟨"New order aggressively executed in part", some 10000000, some 10010000, 1, 0⟩ := by
  decide

/-- Any member of a key list bounds `keyMin` from above. -/
theorem keyMin_le_of_mem : ∀ (l : List Int), ∀ p ∈ l, ∃ mn, keyMin l = some mn ∧ mn ≤ p := by
  intro l
  induction l with
  | nil =>
    intro p hp
    exact absurd hp (List.not_mem_nil p)
  | cons x xs ih =>
    intro p hp
    cases hxs : keyMin xs with
    | none =>
      rcases List.mem_cons.mp hp with h | hmem
      · exact ⟨x, by simp [keyMin, hxs], le_of_eq h.symm⟩
      · obtain ⟨mn, hmn, _⟩ := ih p hmem
        rw [hxs] at hmn
        exact absurd hmn (by simp)
    | some y =>
      rcases List.mem_cons.mp hp with h | hmem
      · exact ⟨min x y, by simp [keyMin, hxs], h ▸ min_le_left x y⟩
      · obtain ⟨mn, hmn, hle⟩ := ih p hmem
        rw [hxs] at hmn
        obtain rfl : y = mn := by injection hmn
        exact ⟨min x y, by simp [keyMin, hxs], le_trans (min_le_right x y) hle⟩

/-- Any member of a key list bounds `keyMax` from below. -/
theorem le_keyMax_of_mem : ∀ (l : List Int), ∀ p ∈ l, ∃ mx, keyMax l = some mx ∧ p ≤ mx := by
  intro l
  induction l with
  | nil =>
    intro p hp
    exact absurd hp (List.not_mem_nil p)
  | cons x xs ih =>
    intro p hp
    cases hxs : keyMax xs with
    | none =>
      rcases List.mem_cons.mp hp with h | hmem
      · exact ⟨x, by simp [keyMax, hxs], le_of_eq h⟩
      · obtain ⟨mx, hmx, _⟩ := ih p hmem
        rw [hxs] at hmx
        exact absurd hmx (by simp)
    | some y =>
      rcases List.mem_cons.mp hp with h | hmem
      · exact ⟨max x y, by simp [keyMax, hxs], h ▸ le_max_left x y⟩
      · obtain ⟨mx, hmx, hle⟩ := ih p hmem
        rw [hxs] at hmx
        obtain rfl : y = mx := by injection hmx
        exact ⟨max x y, by simp [keyMax, hxs], le_trans hle (le_max_right x y)⟩

/-- Killing one level removes exactly that price from both dictionaries. -/
theorem killLvl_mem (s p' : Int) (bk : BookSide) :
    (p' ∈ (killLvl s bk).currDisp.map Prod.fst ↔
      p' ∈ bk.currDisp.map Prod.fst ∧ p' ≠ s) ∧
    (p' ∈ (killLvl s bk).currTotal.map Prod.fst ↔
      p' ∈ bk.currTotal.map Prod.fst ∧ p' ≠ s) := by
  constructor <;>
  · simp only [killLvl, List.mem_map, List.mem_filter, decide_eq_true_eq]
    constructor
    · rintro ⟨a, ⟨ha, hne⟩, rfl⟩
      exact ⟨⟨a, ha, rfl⟩, hne⟩
    · rintro ⟨⟨a, ha, rfl⟩, hne⟩
      exact ⟨a, ⟨ha, hne⟩, rfl⟩

/-- The kill loop over a snapshot removes exactly the snapshotted prices
satisfying the kill comparison, from both dictionaries. -/
theorem killFold_mem (cs : String) (sk : Bool) (P : Int) :
    ∀ (snap : List Int) (bk : BookSide) (p' : Int),
      (p' ∈ ((snap.foldl
          (fun bb plvl => if killCond cs sk plvl P then killLvl plvl bb else bb)
          bk).currDisp.map Prod.fst) ↔
        p' ∈ bk.currDisp.map Prod.fst ∧ ¬(p' ∈ snap ∧ killCond cs sk p' P = true)) ∧
      (p' ∈ ((snap.foldl
          (fun bb plvl => if killCond cs sk plvl P then killLvl plvl bb else bb)
          bk).currTotal.map Prod.fst) ↔
        p' ∈ bk.currTotal.map Prod.fst ∧ ¬(p' ∈ snap ∧ killCond cs sk p' P = true)) := by
  intro snap
  induction snap with
  | nil =>
    intro bk p'
    simp
  | cons s rest ih =>
    intro bk p'
    rw [List.foldl_cons]
    by_cases hcs : killCond cs sk s P = true
    · rw [if_pos hcs]
      obtain ⟨ihd, iht⟩ := ih (killLvl s bk) p'
      obtain ⟨kd, kt⟩ := killLvl_mem s p' bk
      constructor
      · rw [ihd, kd]
        constructor
        · rintro ⟨⟨hmem, hne⟩, hnot⟩
          refine ⟨hmem, ?_⟩
          rintro ⟨hmem2, hc⟩
          rcases List.mem_cons.mp hmem2 with h | h2
          · exact hne h
          · exact hnot ⟨h2, hc⟩
        · rintro ⟨hmem, hnot⟩
          by_cases hps : p' = s
          · exact absurd ⟨List.mem_cons_self s rest, hps ▸ hcs⟩ (hps ▸ hnot)
          · exact ⟨⟨hmem, hps⟩, fun h => hnot ⟨List.mem_cons_of_mem _ h.1, h.2⟩⟩
      · rw [iht, kt]
        constructor
        · rintro ⟨⟨hmem, hne⟩, hnot⟩
          refine ⟨hmem, ?_⟩
          rintro ⟨hmem2, hc⟩
          rcases List.mem_cons.mp hmem2 with h | h2
          · exact hne h
          · exact hnot ⟨h2, hc⟩
        · rintro ⟨hmem, hnot⟩
          by_cases hps : p' = s
          · exact absurd ⟨List.mem_cons_self s rest, hps ▸ hcs⟩ (hps ▸ hnot)
          · exact ⟨⟨hmem, hps⟩, fun h => hnot ⟨List.mem_cons_of_mem _ h.1, h.2⟩⟩
    · rw [if_neg hcs]
      obtain ⟨ihd, iht⟩ := ih bk p'
      constructor
      · rw [ihd]
        constructor
        · rintro ⟨hmem, hnot⟩
          refine ⟨hmem, ?_⟩
          rintro ⟨hmem2, hc⟩
          rcases List.mem_cons.mp hmem2 with h | h2
          · exact hcs (h ▸ hc)
          · exact hnot ⟨h2, hc⟩
        · rintro ⟨hmem, hnot⟩
          exact ⟨hmem, fun h => hnot ⟨List.mem_cons_of_mem _ h.1, h.2⟩⟩
      · rw [iht]
        constructor
        · rintro ⟨hmem, hnot⟩
          refine ⟨hmem, ?_⟩
          rintro ⟨hmem2, hc⟩
          rcases List.mem_cons.mp hmem2 with h | h2
          · exact hcs (h ▸ hc)
          · exact hnot ⟨h2, hc⟩
        · rintro ⟨hmem, hnot⟩
          exact ⟨hmem, fun h => hnot ⟨List.mem_cons_of_mem _ h.1, h.2⟩⟩

/-- Projection of `killFold_mem` for the displayed dictionary. -/
theorem killFold_mem_disp (cs : String) (sk : Bool) (P : Int) (snap : List Int)
    (bk : BookSide) (p' : Int) :
    p' ∈ ((snap.foldl
        (fun bb plvl => if killCond cs sk plvl P then killLvl plvl bb else bb)
        bk).currDisp.map Prod.fst) ↔
      p' ∈ bk.currDisp.map Prod.fst ∧ ¬(p' ∈ snap ∧ killCond cs sk p' P = true) :=
  (killFold_mem cs sk P snap bk p').1

/-- Projection of `killFold_mem` for the total dictionary. -/
theorem killFold_mem_total (cs : String) (sk : Bool) (P : Int) (snap : List Int)
    (bk : BookSide) (p' : Int) :
    p' ∈ ((snap.foldl
        (fun bb plvl => if killCond cs sk plvl P then killLvl plvl bb else bb)
        bk).currTotal.map Prod.fst) ↔
      p' ∈ bk.currTotal.map Prod.fst ∧ ¬(p' ∈ snap ∧ killCond cs sk p' P = true) :=
  (killFold_mem cs sk P snap bk p').2

/-- If the ask-side weak guard does not fire, every resting ask level is
strictly above `P`. -/
theorem needToKill_ask_false (P : Int) (l : List (Int × Int))
    (hg : ¬needToKill "Ask" false P l = true) :
    ∀ p' ∈ l.map Prod.fst, P < p' := by
  intro p' hp'
  obtain ⟨mn, hmn, hle⟩ := keyMin_le_of_mem (l.map Prod.fst) p' hp'
  by_contra hc
  push_neg at hc
  apply hg
  rw [needToKill, bestOf, if_neg (by decide : ¬("Ask" = "Bid")), hmn]
  simp [killCond]
  omega

/-- If the bid-side weak guard does not fire, every resting bid level is
strictly below `P`. -/
theorem needToKill_bid_false (P : Int) (l : List (Int × Int))
    (hg : ¬needToKill "Bid" false P l = true) :
    ∀ p' ∈ l.map Prod.fst, p' < P := by
  intro p' hp'
  obtain ⟨mx, hmx, hle⟩ := le_keyMax_of_mem (l.map Prod.fst) p' hp'
  by_contra hc
  push_neg at hc
  apply hg
  rw [needToKill, bestOf, if_pos (rfl : "Bid" = "Bid"), hmx]
  simp [killCond]
  omega

/-- C4 counterexample: a book side holding one ask level resting exactly
at the accept price 100 has that level killed (not left intact) by the
accept-branch correction `Correctlvl(P, opposite, 'OrderAccept', False)`:
the kill comparison with `strict = False` is weak. -/
theorem correctlvl_level_at_accept_price_killed :
    bkC4.currDisp = [(100, 5)] ∧
      (Correctlvl 100 "Ask" false bkC4).currDisp = [] ∧
      (Correctlvl 100 "Ask" false bkC4).currTotal = [] := by decide

/-- C4 (amended): during continuous trading, the accept-branch book
correction (called with `strict = False`) kills exactly the opposite-side
levels at or beyond the accept price: after `Correctlvl(P, 'Ask',
'OrderAccept', False)` a price survives iff it was resting strictly above
`P`, and after `Correctlvl(P, 'Bid', 'OrderAccept', False)` iff it was
resting strictly below `P` — in particular a level resting exactly at the
accept price is killed, not left intact. -/
theorem correctlvl_accept_weak_kill (P : Int) (bk : BookSide) (hP : 0 < P) (p' : Int) :
    ((p' ∈ (Correctlvl P "Ask" false bk).currDisp.map Prod.fst ↔
        p' ∈ bk.currDisp.map Prod.fst ∧ P < p') ∧
      (p' ∈ (Correctlvl P "Ask" false bk).currTotal.map Prod.fst ↔
        p' ∈ bk.currTotal.map Prod.fst ∧ P < p')) ∧
    ((p' ∈ (Correctlvl P "Bid" false bk).currDisp.map Prod.fst ↔
        p' ∈ bk.currDisp.map Prod.fst ∧ p' < P) ∧
      (p' ∈ (Correctlvl P "Bid" false bk).currTotal.map Prod.fst ↔
        p' ∈ bk.currTotal.map Prod.fst ∧ p' < P)) := by
  have hkca : ∀ a : Int, killCond "Ask" false a P = true ↔ a ≤ P := by
    intro a
    simp [killCond]
  have hkcb : ∀ a : Int, killCond "Bid" false a P = true ↔ P ≤ a := by
    intro a
    simp [killCond]
  constructor
  · -- correction side "Ask" (an accept on the bid side)
    have hnc : P < p' → ¬killCond "Ask" false p' P = true := fun h2 h =>
      absurd ((hkca p').mp h) (not_le.mpr h2)
    simp only [Correctlvl]
    by_cases hgt : needToKill "Ask" false P bk.currTotal = true
    · rw [if_pos ⟨hP, hgt⟩]
      by_cases hgd : needToKill "Ask" false P bk.currDisp = true
      · rw [if_pos ⟨hP, hgd⟩]
        constructor
        · rw [killFold_mem_disp, killFold_mem_disp]
          constructor
          · rintro ⟨⟨h1, h2⟩, _⟩
            refine ⟨h1, ?_⟩
            by_contra hc
            push_neg at hc
            exact h2 ⟨h1, (hkca p').mpr hc⟩
          · rintro ⟨h1, h2⟩
            exact ⟨⟨h1, fun h => hnc h2 h.2⟩, fun h => hnc h2 h.2⟩
        · rw [killFold_mem_total, killFold_mem_total]
          constructor
          · rintro ⟨⟨h1, _⟩, h3⟩
            refine ⟨h1, ?_⟩
            by_contra hc
            push_neg at hc
            exact h3 ⟨h1, (hkca p').mpr hc⟩
          · rintro ⟨h1, h2⟩
            exact ⟨⟨h1, fun h => hnc h2 h.2⟩, fun h => hnc h2 h.2⟩
      · rw [if_neg (fun h => hgd h.2)]
        have habove := needToKill_ask_false P bk.currDisp hgd
        constructor
        · rw [killFold_mem_disp]
          constructor
          · rintro ⟨h1, _⟩
            exact ⟨h1, habove p' h1⟩
          · rintro ⟨h1, h2⟩
            exact ⟨h1, fun h => hnc h2 h.2⟩
        · rw [killFold_mem_total]
          constructor
          · rintro ⟨h1, h2⟩
            refine ⟨h1, ?_⟩
            by_contra hc
            push_neg at hc
            exact h2 ⟨h1, (hkca p').mpr hc⟩
          · rintro ⟨h1, h2⟩
            exact ⟨h1, fun h => hnc h2 h.2⟩
    · rw [if_neg (fun h => hgt h.2)]
      have habovet := needToKill_ask_false P bk.currTotal hgt
      by_cases hgd : needToKill "Ask" false P bk.currDisp = true
      · rw [if_pos ⟨hP, hgd⟩]
        constructor
        · rw [killFold_mem_disp]
          constructor
          · rintro ⟨h1, h2⟩
            refine ⟨h1, ?_⟩
            by_contra hc
            push_neg at hc
            exact h2 ⟨h1, (hkca p').mpr hc⟩
          · rintro ⟨h1, h2⟩
            exact ⟨h1, fun h => hnc h2 h.2⟩
        · rw [killFold_mem_total]
          constructor
          · rintro ⟨h1, _⟩
            exact ⟨h1, habovet p' h1⟩
          · rintro ⟨h1, h2⟩
            exact ⟨h1, fun h => hnc h2 h.2⟩
      · rw [if_neg (fun h => hgd h.2)]
        have habove := needToKill_ask_false P bk.currDisp hgd
        exact ⟨⟨fun h1 => ⟨h1, habove p' h1⟩, fun h => h.1⟩,
          ⟨fun h1 => ⟨h1, habovet p' h1⟩, fun h => h.1⟩⟩
  · -- correction side "Bid" (an accept on the ask side)
    have hnc : p' < P → ¬killCond "Bid" false p' P = true := fun h2 h =>
      absurd ((hkcb p').mp h) (not_le.mpr h2)
    simp only [Correctlvl]
    by_cases hgt : needToKill "Bid" false P bk.currTotal = true
    · rw [if_pos ⟨hP, hgt⟩]
      by_cases hgd : needToKill "Bid" false P bk.currDisp = true
      · rw [if_pos ⟨hP, hgd⟩]
        constructor
        · rw [killFold_mem_disp, killFold_mem_disp]
          constructor
          · rintro ⟨⟨h1, h2⟩, _⟩
            refine ⟨h1, ?_⟩
            by_contra hc
            push_neg at hc
            exact h2 ⟨h1, (hkcb p').mpr hc⟩
          · rintro ⟨h1, h2⟩
            exact ⟨⟨h1, fun h => hnc h2 h.2⟩, fun h => hnc h2 h.2⟩
        · rw [killFold_mem_total, killFold_mem_total]
          constructor
          · rintro ⟨⟨h1, _⟩, h3⟩
            refine ⟨h1, ?_⟩
            by_contra hc
            push_neg at hc
            exact h3 ⟨h1, (hkcb p').mpr hc⟩
          · rintro ⟨h1, h2⟩
            exact ⟨⟨h1, fun h => hnc h2 h.2⟩, fun h => hnc h2 h.2⟩
      · rw [if_neg (fun h => hgd h.2)]
        have hbelow := needToKill_bid_false P bk.currDisp hgd
        constructor
        · rw [killFold_mem_disp]
          constructor
          · rintro ⟨h1, _⟩
            exact ⟨h1, hbelow p' h1⟩
          · rintro ⟨h1, h2⟩
            exact ⟨h1, fun h => hnc h2 h.2⟩
        · rw [killFold_mem_total]
          constructor
          · rintro ⟨h1, h2⟩
            refine ⟨h1, ?_⟩
            by_contra hc
            push_neg at hc
            exact h2 ⟨h1, (hkcb p').mpr hc⟩
          · rintro ⟨h1, h2⟩
            exact ⟨h1, fun h => hnc h2 h.2⟩
    · rw [if_neg (fun h => hgt h.2)]
      have hbelowt := needToKill_bid_false P bk.currTotal hgt
      by_cases hgd : needToKill "Bid" false P bk.currDisp = true
      · rw [if_pos ⟨hP, hgd⟩]
        constructor
        · rw [killFold_mem_disp]
          constructor
          · rintro ⟨h1, h2⟩
            refine ⟨h1, ?_⟩
            by_contra hc
            push_neg at hc
            exact h2 ⟨h1, (hkcb p').mpr hc⟩
          · rintro ⟨h1, h2⟩
            exact ⟨h1, fun h => hnc h2 h.2⟩
        · rw [killFold_mem_total]
          constructor
          · rintro ⟨h1, _⟩
            exact ⟨h1, hbelowt p' h1⟩
          · rintro ⟨h1, h2⟩
            exact ⟨h1, fun h => hnc h2 h.2⟩
      · rw [if_neg (fun h => hgd h.2)]
        have hbelow := needToKill_bid_false P bk.currDisp hgd
        exact ⟨⟨fun h1 => ⟨h1, hbelow p' h1⟩, fun h => h.1⟩,
          ⟨fun h1 => ⟨h1, hbelowt p' h1⟩, fun h => h.1⟩⟩

/-- Witness for C4's amended theorem at the concrete book `bkC4` and
accept price 100, probing the level price 100 itself. -/
theorem correctlvl_accept_weak_kill_witness :
    (0 : Int) < 100 ∧
      ((((100 : Int) ∈ (Correctlvl 100 "Ask" false bkC4).currDisp.map Prod.fst ↔
          (100 : Int) ∈ bkC4.currDisp.map Prod.fst ∧ (100 : Int) < 100) ∧
        ((100 : Int) ∈ (Correctlvl 100 "Ask" false bkC4).currTotal.map Prod.fst ↔
          (100 : Int) ∈ bkC4.currTotal.map Prod.fst ∧ (100 : Int) < 100)) ∧
      (((100 : Int) ∈ (Correctlvl 100 "Bid" false bkC4).currDisp.map Prod.fst ↔
          (100 : Int) ∈ bkC4.currDisp.map Prod.fst ∧ (100 : Int) < 100) ∧
        ((100 : Int) ∈ (Correctlvl 100 "Bid" false bkC4).currTotal.map Prod.fst ↔
          (100 : Int) ∈ bkC4.currTotal.map Prod.fst ∧ (100 : Int) < 100))) :=
  ⟨by decide, correctlvl_accept_weak_kill 100 bkC4 (by decide) 100⟩

/-- C10 counterexample: `BestBid = 10` and `BestAsk = 20` are multiples
of 10, yet `MidPt = (10 + 20) // 2 = 15` is not a multiple of 10. -/
theorem midpt_not_multiple_of_ten :
    (10 : Int) ∣ 10 ∧ (10 : Int) ∣ 20 ∧ midPtOf 10 20 = 15 ∧
      ¬(10 : Int) ∣ midPtOf 10 20 := by
  refine ⟨⟨1, by norm_num⟩, ⟨2, by norm_num⟩, by decide, ?_⟩
  rw [show midPtOf 10 20 = 15 from by decide]
  decide

/-- Ingested prices are multiples of 10 in price-factor units. -/
theorem ingestPrice_multiple_of_ten (price_factor : Int) (price : ℚ) :
    (10 : Int) ∣ ingestPrice price_factor price :=
  Dvd.intro _ rfl

/-- C10 (amended): given best-bid/best-ask prices that are multiples of
10 in price-factor units (as every ingested price is), the derived
`Spread` is a multiple of 10 and `MidPt = (BestBid + BestAsk) // 2` is a
multiple of 5 (but not of 10 in general); and when both inputs are
non-negative and below `2^62`, both derived fields lie strictly within
the signed 64-bit range. -/
theorem price_fields_scale (b a : Int) (hb : (10 : Int) ∣ b) (ha : (10 : Int) ∣ a)
    (hb0 : 0 ≤ b) (ha0 : 0 ≤ a) (hbB : b < 2 ^ 62) (haB : a < 2 ^ 62) :
    (10 : Int) ∣ spreadOf b a ∧ (5 : Int) ∣ midPtOf b a ∧
      -(2 ^ 63) < spreadOf b a ∧ spreadOf b a < 2 ^ 63 ∧
      0 ≤ midPtOf b a ∧ midPtOf b a < 2 ^ 63 := by
  obtain ⟨x, rfl⟩ := hb
  obtain ⟨y, rfl⟩ := ha
  have hmid : midPtOf (10 * x) (10 * y) = 5 * (x + y) := by
    rw [midPtOf, show (10 : Int) * x + 10 * y = 2 * (5 * (x + y)) by ring]
    exact Int.mul_fdiv_cancel_left _ (by norm_num)
  have h62 : (2 : Int) ^ 62 = 4611686018427387904 := by norm_num
  have h63 : (2 : Int) ^ 63 = 9223372036854775808 := by norm_num
  rw [h62] at hbB haB
  refine ⟨⟨y - x, by rw [spreadOf]; ring⟩, ⟨x + y, hmid⟩, ?_, ?_, ?_, ?_⟩ <;>
    simp only [spreadOf, hmid, h63] <;> omega

/-- Witness for C10's amended theorem at `BestBid = 10`, `BestAsk = 20`. -/
theorem price_fields_scale_witness :
    ((10 : Int) ∣ 10) ∧ ((10 : Int) ∣ 20) ∧
      ((10 : Int) ∣ spreadOf 10 20 ∧ (5 : Int) ∣ midPtOf 10 20 ∧
        -(2 ^ 63) < spreadOf 10 20 ∧ spreadOf 10 20 < 2 ^ 63 ∧
        0 ≤ midPtOf 10 20 ∧ midPtOf 10 20 < 2 ^ 63) :=
  ⟨⟨1, by norm_num⟩, ⟨2, by norm_num⟩,
    price_fields_scale 10 20 ⟨1, by norm_num⟩ ⟨2, by norm_num⟩ (by norm_num)
      (by norm_num) (by norm_num) (by norm_num)⟩

end HFTRaces

